import Mathlib

/-!
Verification of the AnoGAN trainer (`src/anomaly_toolbox/trainers/anogan.py`)
against its natural-language specification.

Tensors are embedded as flat lists of real numbers (`List ℝ`); the batch
structure is immaterial to the properties verified here.  The generator and
discriminator models, the automatic-differentiation gradients and the Adam
optimizer updates are external framework collaborators and are embedded as
opaque function fields of an environment record: the repository's own code
only composes them, and every claim below concerns that composition.
-/

namespace AnoGAN

/-- Embedding of `tf.reduce_mean` on a flat tensor: sum divided by element count
(Lean's division returns 0 for an empty tensor, matching no claim depending
on the empty case). -/
noncomputable def reduce_mean (xs : List ℝ) : ℝ := xs.sum / xs.length

/-- Embedding of `tf.ones_like`. -/
noncomputable def ones_like (xs : List ℝ) : List ℝ := xs.map (fun _ => (1 : ℝ))

/-- Embedding of `tf.zeros_like`. -/
noncomputable def zeros_like (xs : List ℝ) : List ℝ := xs.map (fun _ => (0 : ℝ))

/-- One element of `tf.nn.sigmoid_cross_entropy_with_logits` (the primitive
behind `keras.losses.BinaryCrossentropy(from_logits=True)`), in its
numerically stable published form `max(x,0) - x*z + log(1 + exp(-|x|))`
for label `z` and logit `x`. -/
noncomputable def sigmoid_cross_entropy_with_logits (z x : ℝ) : ℝ :=
  max x 0 - x * z + Real.log (1 + Real.exp (-|x|))

/-- Embedding of `keras.losses.BinaryCrossentropy(from_logits=True)` applied to a label
tensor and a logit tensor: the mean of the elementwise cross entropies. -/
noncomputable def binary_crossentropy (y_true y_pred : List ℝ) : ℝ :=
  reduce_mean (List.zipWith sigmoid_cross_entropy_with_logits y_true y_pred)

/-- Embedding of `residual_image` (anogan.py lines 15-24): the absolute value of the
difference between `x` and `g_z`. -/
noncomputable def residual_image (x g_z : List ℝ) : List ℝ :=
  List.zipWith (fun a b => |a - b|) x g_z

/-- Embedding of `residual_loss` (anogan.py lines 27-35): the mean of the residual image. -/
noncomputable def residual_loss (x g_z : List ℝ) : ℝ :=
  reduce_mean (residual_image x g_z)

/-- Embedding of `AdversarialLoss.call` (anogan.py lines 45-57):
`bce(ones_like(d_real), d_real) + bce(zeros_like(d_gen), d_gen)`.
The identical computation appears as `AdversarialLoss.__call__` in
`src/anomaly_toolbox/losses/ganomaly.py` lines 30-35. -/
noncomputable def adversarial_loss (y_true y_pred : List ℝ) : ℝ :=
  let d_real := y_true
  let d_gen := y_pred
  let real_loss := binary_crossentropy (ones_like d_real) d_real
  let generated_loss := binary_crossentropy (zeros_like d_gen) d_gen
  real_loss + generated_loss

/-- The constant `self._lambda = tf.constant(0.1)` (anogan.py line 110). -/
noncomputable def _lambda : ℝ := 0.1

/-- The mutable state owned by the `AnoGAN` trainer: the two models'
trainable parameters, the persistent latent variable `self._z_gamma`
(line 109), and the three Adam optimizers' internal states (moment
estimates and iteration counters), left opaque at type `σ`. -/
structure TrainerState (σ : Type) where
  genParams : List ℝ
  discParams : List ℝ
  _z_gamma : List ℝ
  optD : σ
  optG : σ
  optZ : σ

/-- The external framework collaborators the trainer composes: the
generator and discriminator as opaque parameterized functions (the
discriminator returns a pair `(logits, features)`, of which the trainer
uses only the first component, as in `d_x, _ = self.discriminator(x)`),
the automatic-differentiation oracles behind the three `tape.gradient`
calls, and the three optimizers' `apply_gradients` updates
(`state → params → grads → state × params`). -/
structure Env (σ : Type) where
  generator : List ℝ → List ℝ → List ℝ
  discriminator : List ℝ → List ℝ → List ℝ × List ℝ
  gradLossD : List ℝ → List ℝ → List ℝ → List ℝ → List ℝ
  gradLossG : List ℝ → List ℝ → List ℝ → List ℝ → List ℝ
  gradScoreZ : List ℝ → List ℝ → List ℝ → List ℝ → List ℝ
  applyD : σ → List ℝ → List ℝ → σ × List ℝ
  applyG : σ → List ℝ → List ℝ → σ × List ℝ
  applyZ : σ → List ℝ → List ℝ → σ × List ℝ

/-- The anomaly score computed inside `latent_search.opt_step`
(anogan.py lines 313-324): reconstruct `x_hat` from the current latent
variable, and combine the residual loss with the discriminator-based
discrimination score as
`(1 - lambda) * residual_score + lambda * discrimination_score`. -/
noncomputable def anomaly_score_at {σ : Type} (env : Env σ) (x : List ℝ)
    (s : TrainerState σ) : ℝ :=
  let x_hat := env.generator s.genParams s._z_gamma
  let residual_score := residual_loss x x_hat
  let d_x := (env.discriminator s.discParams x).1
  let d_x_hat := (env.discriminator s.discParams x_hat).1
  let discrimination_score := adversarial_loss d_x d_x_hat
  (1 - _lambda) * residual_score + _lambda * discrimination_score

/-- Embedding of `latent_search.opt_step` (anogan.py lines 309-329): compute the anomaly
score under a tape watching only `self._z_gamma`, pull the gradient of the
score with respect to `[self._z_gamma]`, and apply one `optimizer_z` update
to that single variable; the score is returned. -/
noncomputable def opt_step {σ : Type} (env : Env σ) (x : List ℝ)
    (s : TrainerState σ) : ℝ × TrainerState σ :=
  let anomaly_score := anomaly_score_at env x s
  let grads := env.gradScoreZ s.genParams s.discParams x s._z_gamma
  let zRes := env.applyZ s.optZ s._z_gamma grads
  (anomaly_score, { s with _z_gamma := zRes.2, optZ := zRes.1 })

/-- The reset `self._z_gamma.assign(tf.zeros_like(self._z_gamma))`
(anogan.py line 331). -/
noncomputable def ls_init {σ : Type} (s : TrainerState σ) : TrainerState σ :=
  { s with _z_gamma := zeros_like s._z_gamma }

/-- The `for _ in tf.range(gamma): anomaly_score = opt_step()` loop of
`latent_search` (anogan.py lines 332-333).  The accumulator's first
component is the current value of the Python local `anomaly_score`:
`none` models the name being still unbound (it is bound for the first
time by the first loop iteration). -/
noncomputable def latent_search_loop {σ : Type} (env : Env σ) (x : List ℝ) :
    ℕ → Option ℝ × TrainerState σ → Option ℝ × TrainerState σ
  | 0, acc => acc
  | n + 1, acc =>
      let r := opt_step env x acc.2
      latent_search_loop env x n (some r.1, r.2)

/-- Embedding of `AnoGAN.latent_search` (anogan.py lines 292-334): reset the persistent
latent variable to zero, run `gamma` optimization steps, and return the last
step's anomaly score together with the resulting trainer state.  A first
component of `none` models the `UnboundLocalError` raised by
`return anomaly_score` when the loop body never ran. -/
noncomputable def latent_search {σ : Type} (env : Env σ) (x : List ℝ)
    (gamma : ℕ) (s : TrainerState σ) : Option ℝ × TrainerState σ :=
  latent_search_loop env x gamma (none, ls_init s)

/-- The trainer state reached after `n` latent-search optimization steps. -/
noncomputable def ls_state_iter {σ : Type} (env : Env σ) (x : List ℝ) :
    ℕ → TrainerState σ → TrainerState σ
  | 0, s => s
  | n + 1, s => ls_state_iter env x n (opt_step env x s).2

/-- Embedding of `AnoGAN.train_step` (anogan.py lines 255-290): one shared forward pass
(generated batch `x_hat`, discriminator outputs on `x` and `x_hat`) is
recorded by a single persistent gradient tape; the discriminator loss is the
min-max adversarial loss, the generator loss is `bce(ones_like(d_x_hat),
d_x_hat)`; the tape yields the gradient of `d_loss` with respect to the
discriminator's trainable variables and the gradient of `g_loss` with
respect to the generator's trainable variables, and each optimizer applies
its gradients to its own model's variables.  The random `noise` draw
(line 268) is passed in explicitly. -/
noncomputable def train_step {σ : Type} (env : Env σ) (noise x : List ℝ)
    (s : TrainerState σ) : (List ℝ × ℝ × ℝ) × TrainerState σ :=
  let x_hat := env.generator s.genParams noise
  let d_x := (env.discriminator s.discParams x).1
  let d_x_hat := (env.discriminator s.discParams x_hat).1
  let d_loss := adversarial_loss d_x d_x_hat
  let g_loss := binary_crossentropy (ones_like d_x_hat) d_x_hat
  let d_grads := env.gradLossD s.genParams s.discParams noise x
  let g_grads := env.gradLossG s.genParams s.discParams noise x
  let dRes := env.applyD s.optD s.discParams d_grads
  let gRes := env.applyG s.optG s.genParams g_grads
  ((x_hat, d_loss, g_loss),
   { s with discParams := dRes.2, optD := dRes.1,
            genParams := gRes.2, optG := gRes.1 })

/-- A concrete trivial environment (identity-free stubs) used only to
instantiate universally quantified theorems at a concrete input. -/
def trivialEnv : Env Unit where
  generator := fun _ _ => []
  discriminator := fun _ _ => ([], [])
  gradLossD := fun _ _ _ _ => []
  gradLossG := fun _ _ _ _ => []
  gradScoreZ := fun _ _ _ _ => []
  applyD := fun o p _ => (o, p)
  applyG := fun o p _ => (o, p)
  applyZ := fun o p _ => (o, p)

/-- A concrete trivial trainer state for the same purpose. -/
def trivialState : TrainerState Unit :=
  { genParams := [], discParams := [], _z_gamma := [],
    optD := (), optG := (), optZ := () }

/-- The record persisted by `AnoGAN._select_and_save` under
`<log_dir>/results/best`: both models' parameters (serialized with
`include_optimizer=False`, so no optimizer state) and the `auc.json`
metadata `{"value": float(current_auc), "thresholds": self._auc.thresholds}`.
AUC values and parameters are rationals here so that the selection logic
stays decidable. -/
structure Checkpoint where
  discriminator : List ℚ
  generator : List ℚ
  value : ℚ
  thresholds : List ℚ
deriving DecidableEq

/-- Embedding of `AnoGAN._select_and_save` (anogan.py lines 128-153): serialize the
discriminator and the generator without optimizer state under the fixed
best path and write the `auc.json` record alongside.  Embedded as the
construction of the persisted record; the model parameters and the AUC
metric's fixed threshold list are the surrounding trainer context. -/
def _select_and_save (discriminator generator thresholds : List ℚ)
    (current_auc : ℚ) : Checkpoint :=
  { discriminator := discriminator, generator := generator,
    value := current_auc, thresholds := thresholds }

/-- The model-selection state threaded through `AnoGAN.train`: the
in-memory `best_auc` (line 170) and the currently persisted checkpoint
(`none` while nothing has been written yet). -/
structure SelectionState where
  best_auc : ℚ
  saved : Option Checkpoint
deriving DecidableEq

/-- Lines 251-253 of `AnoGAN.train`: `if best_auc < current_auc:` persist
the checkpoint via `_select_and_save` and update `best_auc`. -/
def selection_step (discriminator generator thresholds : List ℚ)
    (st : SelectionState) (current_auc : ℚ) : SelectionState :=
  if st.best_auc < current_auc then
    { best_auc := current_auc,
      saved := some (_select_and_save discriminator generator thresholds current_auc) }
  else st

/-- The model-selection behaviour of `AnoGAN.train` over the sequence of
candidate validation AUC values it observes, starting from
`best_auc = -1.0` (line 170) with nothing persisted yet. -/
def run_selection (discriminator generator thresholds : List ℚ)
    (cs : List ℚ) : SelectionState :=
  cs.foldl (selection_step discriminator generator thresholds)
    { best_auc := -1, saved := none }

/-- The observable events of the `AnoGAN.train` epoch loop. -/
inductive TrainEvent where
  | step (epoch : ℕ) (batch : ℕ)
  | resetMetrics (epoch : ℕ)
  | validation (epoch : ℕ)
deriving DecidableEq

/-- One iteration of the epoch loop of `AnoGAN.train` (lines 171-253) as
the sequence of events it emits: the per-batch training steps
(lines 172-205), the end-of-epoch metric reset (line 209), and the
validation/model-selection pass (lines 217-253), which is skipped by the
`continue` at lines 214-215 unless `epoch % model_selection == 0` with
`model_selection = tf.constant(10)` (line 213). -/
def epoch_events (nBatches : ℕ) (epoch : ℕ) : List TrainEvent :=
  ((List.range nBatches).map (TrainEvent.step epoch)) ++
    [TrainEvent.resetMetrics epoch] ++
    (if epoch % 10 ≠ 0 then [] else [TrainEvent.validation epoch])

/-- The full event sequence of `AnoGAN.train` over `epochs` epochs of
`nBatches` training batches each. -/
def train_events (epochs nBatches : ℕ) : List TrainEvent :=
  (List.range epochs).flatMap (epoch_events nBatches)

/-- The state of the three metrics registered in `self.keras_metrics`
(anogan.py lines 97-106): the two `keras.metrics.Mean` loss averages hold
the values fed to `update_state`, and the `keras.metrics.AUC` accumulator
holds the `(y_true, y_pred)` pairs fed to it; `result()` is a pure function
of the accumulated state. -/
structure Metrics where
  epoch_d_loss_avg : List ℝ
  epoch_g_loss_avg : List ℝ
  auc_state : List (ℝ × ℝ)

/-- The keys of the `self.keras_metrics` dictionary (anogan.py
lines 103-106): the names of `epoch_d_loss_avg`, `epoch_g_loss_avg` and the
AUC accumulator `self._auc` (Keras default name `auc`). -/
def keras_metric_names : List String :=
  ["epoch_discriminator_loss", "epoch_generator_loss", "auc"]

/-- Modelled from the spec: `Trainer._reset_keras_metrics` is defined in
the base class (`anomaly_toolbox/trainers/trainer.py`), which is not among
the sources; per the spec ("Running Metrics (loss averages, AUC
accumulator): process-scoped state, reset at fixed boundaries") it resets
the state of every metric registered in `keras_metrics` — the three
metrics above included. -/
def _reset_keras_metrics (_m : Metrics) : Metrics :=
  { epoch_d_loss_avg := [], epoch_g_loss_avg := [], auc_state := [] }

/-- One epoch of `AnoGAN.train` (lines 171-249) as a transformer of the
metrics state: the training phase appends every batch's `d_loss` and
`g_loss` to the running averages (lines 178-179); the metrics are reset at
the end of the epoch (line 209); unless `epoch % 10 == 0` the epoch ends
there (lines 213-215); otherwise the validation pass feeds each validation
sample's `(label, anomaly_score)` pair into the AUC accumulator
(lines 233-235), and `self._auc.result()` is read at line 246 as a function
of the accumulator's state — the second component is the accumulator state
that result is computed from (`none` on non-validation epochs). -/
def epoch_pass (d_losses g_losses : List ℝ) (val_samples : List (ℝ × ℝ))
    (epoch : ℕ) (m : Metrics) : Metrics × Option (List (ℝ × ℝ)) :=
  let m1 : Metrics :=
    { m with epoch_d_loss_avg := m.epoch_d_loss_avg ++ d_losses,
             epoch_g_loss_avg := m.epoch_g_loss_avg ++ g_losses }
  let m2 := _reset_keras_metrics m1
  if epoch % 10 ≠ 0 then (m2, none)
  else
    let m3 : Metrics := { m2 with auc_state := m2.auc_state ++ val_samples }
    (m3, some m3.auc_state)

/-- A shaped tensor over the rationals, for the startup shape-validation
model. -/
structure STensor where
  shape : List ℕ
  data : List ℚ
deriving DecidableEq

/-- Embedding of `tf.zeros(shape)`: a zero-filled tensor of the given shape. -/
def tf_zeros (shape : List ℕ) : STensor :=
  { shape := shape, data := List.replicate (shape.foldl (fun a b => a * b) 1) 0 }

/-- The observable events of a trainer run: model invocations made during
construction and training steps made by `train`. -/
inductive RunEvent where
  | generatorCall (arg : STensor)
  | discriminatorCall (arg : STensor)
  | trainStep
deriving DecidableEq

/-- The generator/discriminator pair as invocable models; `none` models the
framework exception raised on an architecture/shape mismatch. -/
structure ModelPair where
  generatorApply : STensor → Option STensor
  discriminatorApply : STensor → Option STensor

/-- Embedding of `AnoGAN._validate_models` (anogan.py lines 117-126): invoke the
generator on `tf.zeros((1, latent_vector_size))` and then the discriminator
on `tf.zeros((1, *input_dimension))`, each exactly once; an exception
aborts immediately (the discriminator is never reached if the generator
call raises).  Returns the list of model invocations made, and whether
validation succeeded. -/
def _validate_models (models : ModelPair) (input_dimension : ℕ × ℕ × ℕ)
    (latent_vector_size : ℕ) : List RunEvent × Bool :=
  let fake_latent_vector := tf_zeros [1, latent_vector_size]
  match models.generatorApply fake_latent_vector with
  | none => ([RunEvent.generatorCall fake_latent_vector], false)
  | some _ =>
      let fake_batch_size :=
        tf_zeros [1, input_dimension.1, input_dimension.2.1, input_dimension.2.2]
      match models.discriminatorApply fake_batch_size with
      | none =>
          ([RunEvent.generatorCall fake_latent_vector,
            RunEvent.discriminatorCall fake_batch_size], false)
      | some _ =>
          ([RunEvent.generatorCall fake_latent_vector,
            RunEvent.discriminatorCall fake_batch_size], true)

/-- A trainer run: `AnoGAN.__init__` (line 80) runs
`_validate_models((28, 28, dataset.channels), hps["latent_vector_size"])`
during construction, before `train` can ever be called; an exception there
propagates out of the constructor, so the training steps execute only when
startup validation succeeded. -/
def anogan_run (models : ModelPair) (channels latent_vector_size : ℕ)
    (train_steps : ℕ) : List RunEvent × Bool :=
  let r := _validate_models models (28, 28, channels) latent_vector_size
  if r.2 then (r.1 ++ List.replicate train_steps RunEvent.trainStep, true)
  else (r.1, false)

/-- A concrete model pair accepting every input, used to instantiate
universally quantified theorems at a concrete input. -/
def okModels : ModelPair :=
  { generatorApply := fun t => some t, discriminatorApply := fun t => some t }

/-! ### Basic lemmas about the losses -/

lemma sce_nonneg_one (x : ℝ) : 0 ≤ sigmoid_cross_entropy_with_logits 1 x := by
  unfold sigmoid_cross_entropy_with_logits
  have h1 : x ≤ max x 0 := le_max_left x 0
  have h2 : 0 ≤ Real.log (1 + Real.exp (-|x|)) := by
    apply Real.log_nonneg
    have := Real.exp_pos (-|x|)
    linarith
  linarith

lemma sce_nonneg_zero (x : ℝ) : 0 ≤ sigmoid_cross_entropy_with_logits 0 x := by
  unfold sigmoid_cross_entropy_with_logits
  have h1 : (0 : ℝ) ≤ max x 0 := le_max_right x 0
  have h2 : 0 ≤ Real.log (1 + Real.exp (-|x|)) := by
    apply Real.log_nonneg
    have := Real.exp_pos (-|x|)
    linarith
  linarith

lemma reduce_mean_nonneg (xs : List ℝ) (h : ∀ a ∈ xs, 0 ≤ a) : 0 ≤ reduce_mean xs := by
  unfold reduce_mean
  exact div_nonneg (List.sum_nonneg h) (Nat.cast_nonneg _)

lemma bce_ones_nonneg (d : List ℝ) : 0 ≤ binary_crossentropy (ones_like d) d := by
  apply reduce_mean_nonneg
  intro a ha
  induction d with
  | nil => simp [ones_like] at ha
  | cons y ys ih =>
      simp only [ones_like, List.map_cons, List.zipWith_cons_cons, List.mem_cons] at ha
      rcases ha with h | h
      · subst h; exact sce_nonneg_one y
      · exact ih (by simpa [ones_like] using h)

lemma bce_zeros_nonneg (d : List ℝ) : 0 ≤ binary_crossentropy (zeros_like d) d := by
  apply reduce_mean_nonneg
  intro a ha
  induction d with
  | nil => simp [zeros_like] at ha
  | cons y ys ih =>
      simp only [zeros_like, List.map_cons, List.zipWith_cons_cons, List.mem_cons] at ha
      rcases ha with h | h
      · subst h; exact sce_nonneg_zero y
      · exact ih (by simpa [zeros_like] using h)

end AnoGAN

/-! ### Claim theorems for the loss functions -/

/-- C9: for all discriminator outputs `d_real` and `d_fake`,
`adversarial_loss(d_real, d_fake)` equals
`binary_crossentropy(target = 1, d_real) + binary_crossentropy(target = 0, d_fake)`,
and this value is non-negative (the sum of two non-negative cross-entropy
terms). -/
theorem c9_adversarial_loss_sum_of_bce_and_nonneg (d_real d_fake : List ℝ) :
    AnoGAN.adversarial_loss d_real d_fake =
      AnoGAN.binary_crossentropy (AnoGAN.ones_like d_real) d_real +
        AnoGAN.binary_crossentropy (AnoGAN.zeros_like d_fake) d_fake ∧
    0 ≤ AnoGAN.adversarial_loss d_real d_fake := by
  constructor
  · rfl
  · have h1 := AnoGAN.bce_ones_nonneg d_real
    have h2 := AnoGAN.bce_zeros_nonneg d_fake
    unfold AnoGAN.adversarial_loss
    dsimp only
    linarith

/-- C10: for every tensor `x`, `residual_image x x` is the zero tensor
(of the same length as `x`) and `residual_loss x x = 0`. -/
theorem c10_residual_of_self_is_zero (x : List ℝ) :
    AnoGAN.residual_image x x = List.replicate x.length (0 : ℝ) ∧
    AnoGAN.residual_loss x x = 0 := by
  have himg : AnoGAN.residual_image x x = List.replicate x.length (0 : ℝ) := by
    induction x with
    | nil => rfl
    | cons a as ih =>
        show |a - a| :: AnoGAN.residual_image as as =
          (0 : ℝ) :: List.replicate as.length (0 : ℝ)
        rw [sub_self, abs_zero, ih]
  refine ⟨himg, ?_⟩
  unfold AnoGAN.residual_loss AnoGAN.reduce_mean
  rw [himg]
  simp

namespace AnoGAN

/-! ### Lemmas about the latent search loop -/

lemma zeros_like_eq_replicate (xs : List ℝ) :
    zeros_like xs = List.replicate xs.length (0 : ℝ) := by
  induction xs with
  | nil => rfl
  | cons a as ih =>
      show (0 : ℝ) :: zeros_like as = (0 : ℝ) :: List.replicate as.length 0
      rw [ih]

lemma ls_loop_characterization {σ : Type} (env : Env σ) (x : List ℝ) :
    ∀ (m : ℕ) (p : Option ℝ) (s : TrainerState σ),
      latent_search_loop env x (m + 1) (p, s) =
        (some (anomaly_score_at env x (ls_state_iter env x m s)),
         ls_state_iter env x (m + 1) s) := by
  intro m
  induction m with
  | zero => intro p s; rfl
  | succ n ih =>
      intro p s
      show latent_search_loop env x (n + 1)
        (some (opt_step env x s).1, (opt_step env x s).2) = _
      rw [ih]
      rfl

lemma ls_loop_state {σ : Type} (env : Env σ) (x : List ℝ) :
    ∀ (n : ℕ) (p : Option ℝ) (s : TrainerState σ),
      (latent_search_loop env x n (p, s)).2 = ls_state_iter env x n s := by
  intro n
  induction n with
  | zero => intro p s; rfl
  | succ m ih =>
      intro p s
      show (latent_search_loop env x m
        (some (opt_step env x s).1, (opt_step env x s).2)).2 = _
      rw [ih]
      rfl

lemma ls_state_iter_frame {σ : Type} (env : Env σ) (x : List ℝ) :
    ∀ (n : ℕ) (s : TrainerState σ),
      (ls_state_iter env x n s).genParams = s.genParams ∧
      (ls_state_iter env x n s).discParams = s.discParams ∧
      (ls_state_iter env x n s).optD = s.optD ∧
      (ls_state_iter env x n s).optG = s.optG := by
  intro n
  induction n with
  | zero => intro s; exact ⟨rfl, rfl, rfl, rfl⟩
  | succ m ih =>
      intro s
      exact ih (opt_step env x s).2

end AnoGAN

/-! ### Claim theorems for the latent search and the training step -/

/-- C1: for every input sample `x`, `latent_search` first resets the
persistent latent variable `z_gamma` to the zero vector, then performs
`gamma` (in particular the default 500) optimization steps, each computing
`score = (1 - lambda) * residual_loss(x, G(z_gamma)) +
lambda * discrimination_score` with fixed `lambda = 0.1`, where the
discrimination score is the adversarial loss between the discriminator's
outputs on `x` and on the reconstruction `G(z_gamma)`; the score of the
final step is returned as the sample's anomaly score. -/
theorem c1_latent_search_resets_iterates_returns_final_score
    {σ : Type} (env : AnoGAN.Env σ) (x : List ℝ) (s : AnoGAN.TrainerState σ)
    (gamma : ℕ) (h : 1 ≤ gamma) :
    AnoGAN.latent_search env x gamma s =
      (some (AnoGAN.anomaly_score_at env x
        (AnoGAN.ls_state_iter env x (gamma - 1) (AnoGAN.ls_init s))),
       AnoGAN.ls_state_iter env x gamma (AnoGAN.ls_init s)) ∧
    (AnoGAN.ls_init s)._z_gamma = List.replicate s._z_gamma.length (0 : ℝ) ∧
    ∀ t : AnoGAN.TrainerState σ,
      AnoGAN.anomaly_score_at env x t =
        (1 - (0.1 : ℝ)) *
            AnoGAN.residual_loss x (env.generator t.genParams t._z_gamma) +
          (0.1 : ℝ) *
            AnoGAN.adversarial_loss (env.discriminator t.discParams x).1
              (env.discriminator t.discParams
                (env.generator t.genParams t._z_gamma)).1 := by
  obtain ⟨m, rfl⟩ : ∃ m, gamma = m + 1 :=
    ⟨gamma - 1, (Nat.succ_pred_eq_of_pos h).symm⟩
  refine ⟨?_, ?_, ?_⟩
  · show AnoGAN.latent_search_loop env x (m + 1) (none, AnoGAN.ls_init s) = _
    rw [AnoGAN.ls_loop_characterization]
    rfl
  · exact AnoGAN.zeros_like_eq_replicate s._z_gamma
  · intro t
    rfl

/-- Witness for C1 at a concrete environment, state and the default
`gamma = 500`. -/
theorem c1_witness :
    1 ≤ 500 ∧
    (AnoGAN.latent_search AnoGAN.trivialEnv [] 500 AnoGAN.trivialState =
      (some (AnoGAN.anomaly_score_at AnoGAN.trivialEnv []
        (AnoGAN.ls_state_iter AnoGAN.trivialEnv [] (500 - 1)
          (AnoGAN.ls_init AnoGAN.trivialState))),
       AnoGAN.ls_state_iter AnoGAN.trivialEnv [] 500
         (AnoGAN.ls_init AnoGAN.trivialState)) ∧
    (AnoGAN.ls_init AnoGAN.trivialState)._z_gamma =
      List.replicate AnoGAN.trivialState._z_gamma.length (0 : ℝ) ∧
    ∀ t : AnoGAN.TrainerState Unit,
      AnoGAN.anomaly_score_at AnoGAN.trivialEnv [] t =
        (1 - (0.1 : ℝ)) *
            AnoGAN.residual_loss []
              (AnoGAN.trivialEnv.generator t.genParams t._z_gamma) +
          (0.1 : ℝ) *
            AnoGAN.adversarial_loss
              (AnoGAN.trivialEnv.discriminator t.discParams []).1
              (AnoGAN.trivialEnv.discriminator t.discParams
                (AnoGAN.trivialEnv.generator t.genParams t._z_gamma)).1) :=
  ⟨by decide,
   c1_latent_search_resets_iterates_returns_final_score
     AnoGAN.trivialEnv [] AnoGAN.trivialState 500 (by decide)⟩

/-- C3 (behaviour actually implemented): running `latent_search` with
`gamma = 0` optimization steps leaves the local `anomaly_score` unbound
(the loop body never runs, so `return anomaly_score` raises
`UnboundLocalError`, modelled as `none`), rather than returning the score
of the zeroed latent vector; the models' parameters are not mutated. -/
theorem c3_gamma_zero_returns_no_score
    {σ : Type} (env : AnoGAN.Env σ) (x : List ℝ) (s : AnoGAN.TrainerState σ) :
    (AnoGAN.latent_search env x 0 s).1 = none ∧
    (AnoGAN.latent_search env x 0 s).2 = AnoGAN.ls_init s ∧
    (AnoGAN.latent_search env x 0 s).2.genParams = s.genParams ∧
    (AnoGAN.latent_search env x 0 s).2.discParams = s.discParams :=
  ⟨rfl, rfl, rfl, rfl⟩

/-- C5: within one training step, the persistent latent variable and its
optimizer are untouched; the discriminator's parameters after the step are
exactly `optimizer_d` applied to the gradient of the discriminator loss
with respect to the discriminator's variables, and the generator's
parameters exactly `optimizer_g` applied to the gradient of the generator
loss with respect to the generator's variables, both pulled from the one
shared recorded forward pass; replacing the discriminator's gradient or
optimizer update leaves the generator's parameters unchanged, and vice
versa. -/
theorem c5_train_step_updates_own_parameters_only
    {σ : Type} (env : AnoGAN.Env σ) (noise x : List ℝ)
    (s : AnoGAN.TrainerState σ) :
    ((AnoGAN.train_step env noise x s).2._z_gamma = s._z_gamma ∧
     (AnoGAN.train_step env noise x s).2.optZ = s.optZ) ∧
    (AnoGAN.train_step env noise x s).2.discParams =
      (env.applyD s.optD s.discParams
        (env.gradLossD s.genParams s.discParams noise x)).2 ∧
    (AnoGAN.train_step env noise x s).2.genParams =
      (env.applyG s.optG s.genParams
        (env.gradLossG s.genParams s.discParams noise x)).2 ∧
    (∀ f, (AnoGAN.train_step { env with applyD := f } noise x s).2.genParams =
      (AnoGAN.train_step env noise x s).2.genParams) ∧
    (∀ f, (AnoGAN.train_step { env with applyG := f } noise x s).2.discParams =
      (AnoGAN.train_step env noise x s).2.discParams) ∧
    (∀ f, (AnoGAN.train_step { env with gradLossD := f } noise x s).2.genParams =
      (AnoGAN.train_step env noise x s).2.genParams) ∧
    (∀ f, (AnoGAN.train_step { env with gradLossG := f } noise x s).2.discParams =
      (AnoGAN.train_step env noise x s).2.discParams) :=
  ⟨⟨rfl, rfl⟩, rfl, rfl, fun _ => rfl, fun _ => rfl, fun _ => rfl, fun _ => rfl⟩

/-- C6: every optimization step of `latent_search` changes only the latent
variable `z_gamma` and the `optimizer_z` state (the single update is
`optimizer_z` applied to the gradient of the score with respect to
`z_gamma` only), so the generator's and the discriminator's parameters are
unchanged by an entire latent search, whatever `gamma`. -/
theorem c6_latent_search_never_touches_model_parameters
    {σ : Type} (env : AnoGAN.Env σ) (x : List ℝ) (gamma : ℕ)
    (s : AnoGAN.TrainerState σ) :
    (∀ t : AnoGAN.TrainerState σ, (AnoGAN.opt_step env x t).2 =
      { t with
        _z_gamma := (env.applyZ t.optZ t._z_gamma
          (env.gradScoreZ t.genParams t.discParams x t._z_gamma)).2,
        optZ := (env.applyZ t.optZ t._z_gamma
          (env.gradScoreZ t.genParams t.discParams x t._z_gamma)).1 }) ∧
    (AnoGAN.latent_search env x gamma s).2.genParams = s.genParams ∧
    (AnoGAN.latent_search env x gamma s).2.discParams = s.discParams := by
  refine ⟨fun t => rfl, ?_, ?_⟩
  · show (AnoGAN.latent_search_loop env x gamma (none, AnoGAN.ls_init s)).2.genParams = _
    rw [AnoGAN.ls_loop_state]
    exact (AnoGAN.ls_state_iter_frame env x gamma (AnoGAN.ls_init s)).1
  · show (AnoGAN.latent_search_loop env x gamma (none, AnoGAN.ls_init s)).2.discParams = _
    rw [AnoGAN.ls_loop_state]
    exact (AnoGAN.ls_state_iter_frame env x gamma (AnoGAN.ls_init s)).2.1

/-- C7: the validation procedure (latent search over the validation subset,
AUC accumulation, hand-off to model selection) runs exactly on those epochs
of the run whose index is congruent to 0 modulo 10, and on no other
epoch. -/
theorem c7_validation_exactly_every_ten_epochs (epochs nBatches e : ℕ) :
    AnoGAN.TrainEvent.validation e ∈ AnoGAN.train_events epochs nBatches ↔
      e < epochs ∧ e % 10 = 0 := by
  unfold AnoGAN.train_events AnoGAN.epoch_events
  simp only [List.mem_flatMap, List.mem_range, List.mem_append, List.mem_map,
    List.mem_singleton]
  constructor
  · rintro ⟨a, ha, hmem⟩
    rcases hmem with (⟨b, _, hb⟩ | hb) | hb
    · exact absurd hb (by simp)
    · exact absurd hb (by simp)
    · by_cases h10 : a % 10 ≠ 0
      · rw [if_pos h10] at hb
        exact absurd hb (List.not_mem_nil _)
      · rw [if_neg h10] at hb
        rw [List.mem_singleton] at hb
        cases hb
        exact ⟨ha, Nat.eq_zero_of_not_pos (fun hp => h10 (Nat.pos_iff_ne_zero.mp hp))⟩
  · rintro ⟨he, h10⟩
    refine ⟨e, he, Or.inr ?_⟩
    rw [if_neg (by simpa using h10)]
    exact List.mem_singleton.mpr rfl

/-- C4: the AUC accumulator is registered in the trainer's `keras_metrics`
collection, which is reset at the end of every epoch before any validation
pass runs; therefore whatever accumulator state an epoch starts from, the
state the validation AUC is computed from holds exactly that pass's
samples, making each validation AUC an independent per-pass estimate. -/
theorem c4_auc_registered_and_reset_before_validation
    (d_losses g_losses : List ℝ) (val_samples : List (ℝ × ℝ)) (epoch : ℕ)
    (m : AnoGAN.Metrics) :
    "auc" ∈ AnoGAN.keras_metric_names ∧
    (AnoGAN._reset_keras_metrics m).auc_state = [] ∧
    (AnoGAN.epoch_pass d_losses g_losses val_samples epoch m).2 =
      (if epoch % 10 = 0 then some val_samples else none) := by
  refine ⟨by simp [AnoGAN.keras_metric_names], rfl, ?_⟩
  by_cases h : epoch % 10 = 0
  · simp [AnoGAN.epoch_pass, AnoGAN._reset_keras_metrics, h]
  · simp [AnoGAN.epoch_pass, AnoGAN._reset_keras_metrics, h]

/-- C8: before any training step executes, the generator and the
discriminator are each invoked exactly once with a dummy zero-filled tensor
of the expected shape (a batch-of-one latent vector for the generator, a
batch-of-one `28×28×channels` image for the discriminator); when either
dummy invocation raises on a shape mismatch, the run fails with no training
step ever executed. -/
theorem c8_dummy_invocations_precede_training
    (models : AnoGAN.ModelPair) (channels latent_vector_size train_steps : ℕ) :
    ((AnoGAN._validate_models models (28, 28, channels) latent_vector_size).2 = true →
      AnoGAN.anogan_run models channels latent_vector_size train_steps =
        ([AnoGAN.RunEvent.generatorCall (AnoGAN.tf_zeros [1, latent_vector_size]),
          AnoGAN.RunEvent.discriminatorCall (AnoGAN.tf_zeros [1, 28, 28, channels])] ++
          List.replicate train_steps AnoGAN.RunEvent.trainStep, true)) ∧
    ((AnoGAN._validate_models models (28, 28, channels) latent_vector_size).2 = false →
      AnoGAN.RunEvent.trainStep ∉
        (AnoGAN.anogan_run models channels latent_vector_size train_steps).1) := by
  constructor
  · intro h
    simp only [AnoGAN.anogan_run, AnoGAN._validate_models] at h ⊢
    cases hg : models.generatorApply (AnoGAN.tf_zeros [1, latent_vector_size]) with
    | none => simp only [hg] at h; exact Bool.noConfusion h
    | some v =>
        simp only [hg] at h ⊢
        cases hd : models.discriminatorApply (AnoGAN.tf_zeros [1, 28, 28, channels]) with
        | none => simp only [hd] at h; exact Bool.noConfusion h
        | some w => simp only [hd]; simp
  · intro h
    simp only [AnoGAN.anogan_run, AnoGAN._validate_models] at h ⊢
    cases hg : models.generatorApply (AnoGAN.tf_zeros [1, latent_vector_size]) with
    | none => simp only [hg]; simp
    | some v =>
        simp only [hg] at h ⊢
        cases hd : models.discriminatorApply (AnoGAN.tf_zeros [1, 28, 28, channels]) with
        | none => simp only [hd]; simp
        | some w => simp only [hd] at h; exact Bool.noConfusion h

/-- Witness for C8 at a concrete always-accepting model pair. -/
theorem c8_witness :
    (AnoGAN._validate_models AnoGAN.okModels (28, 28, 1) 2).2 = true ∧
    AnoGAN.anogan_run AnoGAN.okModels 1 2 3 =
      ([AnoGAN.RunEvent.generatorCall (AnoGAN.tf_zeros [1, 2]),
        AnoGAN.RunEvent.discriminatorCall (AnoGAN.tf_zeros [1, 28, 28, 1])] ++
        List.replicate 3 AnoGAN.RunEvent.trainStep, true) :=
  ⟨rfl, (c8_dummy_invocations_precede_training AnoGAN.okModels 1 2 3).1 rfl⟩

namespace AnoGAN

/-! ### Lemmas about model selection -/

lemma selection_step_best (d g t : List ℚ) (st : SelectionState) (c : ℚ) :
    (selection_step d g t st c).best_auc = max st.best_auc c := by
  unfold selection_step
  rcases lt_or_ge st.best_auc c with h | h
  · rw [if_pos h]
    exact (max_eq_right h.le).symm
  · rw [if_neg (not_lt.mpr h)]
    exact (max_eq_left h).symm

lemma selection_foldl_best (d g t : List ℚ) :
    ∀ (cs : List ℚ) (st : SelectionState),
      (cs.foldl (selection_step d g t) st).best_auc = cs.foldl max st.best_auc := by
  intro cs
  induction cs with
  | nil => intro st; rfl
  | cons c cs ih =>
      intro st
      rw [List.foldl_cons, List.foldl_cons, ih, selection_step_best]

lemma foldl_max_init_le : ∀ (cs : List ℚ) (a : ℚ), a ≤ cs.foldl max a := by
  intro cs
  induction cs with
  | nil => intro a; exact le_refl a
  | cons b bs ih =>
      intro a
      rw [List.foldl_cons]
      exact le_trans (le_max_left a b) (ih (max a b))

lemma foldl_max_is_ub : ∀ (cs : List ℚ) (a c : ℚ), c ∈ cs → c ≤ cs.foldl max a := by
  intro cs
  induction cs with
  | nil => intro a c hc; exact absurd hc (List.not_mem_nil c)
  | cons b bs ih =>
      intro a c hc
      rw [List.foldl_cons]
      rcases List.mem_cons.mp hc with rfl | hc
      · exact le_trans (le_max_right a c) (foldl_max_init_le bs (max a c))
      · exact ih (max a b) c hc

lemma foldl_max_mem : ∀ (cs : List ℚ) (a : ℚ), cs.foldl max a = a ∨ cs.foldl max a ∈ cs := by
  intro cs
  induction cs with
  | nil => intro a; exact Or.inl rfl
  | cons b bs ih =>
      intro a
      rw [List.foldl_cons]
      rcases ih (max a b) with h | h
      · rw [h]
        rcases max_choice a b with h1 | h1
        · exact Or.inl h1
        · refine Or.inr ?_
          rw [h1]
          exact List.mem_cons_self b bs
      · exact Or.inr (List.mem_cons_of_mem b h)

lemma selection_saved_inv (d g t : List ℚ) :
    ∀ (cs : List ℚ) (st : SelectionState),
      (∀ c ∈ cs, 0 ≤ c) →
      ((st.saved = none ∧ st.best_auc = -1) ∨
        st.saved = some (_select_and_save d g t st.best_auc)) →
      ((cs.foldl (selection_step d g t) st).saved = none ∧
          (cs.foldl (selection_step d g t) st).best_auc = -1) ∨
        (cs.foldl (selection_step d g t) st).saved =
          some (_select_and_save d g t
            (cs.foldl (selection_step d g t) st).best_auc) := by
  intro cs
  induction cs with
  | nil => intro st _ hin; exact hin
  | cons c cs ih =>
      intro st h hin
      rw [List.foldl_cons]
      apply ih _ (fun x hx => h x (List.mem_cons_of_mem _ hx))
      unfold selection_step
      rcases lt_or_ge st.best_auc c with hlt | hge
      · rw [if_pos hlt]
        exact Or.inr rfl
      · rw [if_neg (not_lt.mpr hge)]
        rcases hin with ⟨h1, h2⟩ | h1
        · exfalso
          have hc := h c (List.mem_cons_self c cs)
          rw [h2] at hge
          linarith
        · exact Or.inr h1

lemma take_elem_lt {α : Type} [Inhabited α] (cs : List α) (i j : ℕ)
    (hi : i ≤ cs.length) (hj : j < i) : cs.getD j default ∈ cs.take i := by
  have hjl : j < cs.length := lt_of_lt_of_le hj hi
  have hjt : j < (cs.take i).length := by
    rw [List.length_take]
    exact lt_min hj hjl
  have : (cs.take i).get ⟨j, hjt⟩ = cs.getD j default := by
    rw [List.getD_eq_getElem cs default hjl]
    simp [List.getElem_take]
  rw [← this]
  exact List.get_mem _ _ _

lemma mem_take_getD {α : Type} [Inhabited α] (cs : List α) (i : ℕ) (c : α)
    (hc : c ∈ cs.take i) : ∃ j, j < i ∧ j < cs.length ∧ cs.getD j default = c := by
  rcases List.mem_iff_get.mp hc with ⟨⟨j, hj⟩, hget⟩
  have hjm : j < min i cs.length := by
    rw [← List.length_take]
    exact hj
  refine ⟨j, lt_of_lt_of_le hjm (min_le_left _ _),
    lt_of_lt_of_le hjm (min_le_right _ _), ?_⟩
  rw [List.getD_eq_getElem cs default (lt_of_lt_of_le hjm (min_le_right _ _))]
  rw [← hget]
  simp [List.getElem_take]

end AnoGAN

/-- C2: starting from `best_auc = -1.0`, and given that every candidate
validation AUC is in `[0, 1]` (Keras AUC values always are), the candidate
observed at position `i` triggers a checkpoint write (the guard
`best_auc < current_auc` at line 251) if and only if it strictly exceeds
every previously seen candidate; and after any positive number of
candidates the persisted checkpoint consists of exactly the discriminator's
and the generator's parameters with the AUC metadata record whose `value`
equals the maximum candidate AUC seen so far (and the fixed threshold
boundaries). -/
theorem c2_checkpoint_written_iff_new_best
    (d g t : List ℚ) (cs : List ℚ) (h0 : ∀ c ∈ cs, 0 ≤ c ∧ c ≤ 1) :
    (∀ i, i < cs.length →
      ((AnoGAN.run_selection d g t (cs.take i)).best_auc < cs.getD i 0 ↔
        ∀ j, j < i → cs.getD j 0 < cs.getD i 0)) ∧
    (∀ i, 1 ≤ i → i ≤ cs.length →
      ∃ ck : AnoGAN.Checkpoint,
        (AnoGAN.run_selection d g t (cs.take i)).saved = some ck ∧
        ck = AnoGAN._select_and_save d g t ck.value ∧
        ck.value ∈ cs.take i ∧
        ∀ c ∈ cs.take i, c ≤ ck.value) := by
  have hbest : ∀ p : List ℚ, (AnoGAN.run_selection d g t p).best_auc =
      p.foldl max (-1) := by
    intro p
    unfold AnoGAN.run_selection
    rw [AnoGAN.selection_foldl_best]
  constructor
  · intro i hi
    rw [hbest]
    constructor
    · intro hlt j hj
      refine lt_of_le_of_lt ?_ hlt
      apply AnoGAN.foldl_max_is_ub
      have := AnoGAN.take_elem_lt cs i j (le_of_lt hi) hj
      simpa using this
    · intro hall
      rcases AnoGAN.foldl_max_mem (cs.take i) (-1) with h | h
      · rw [h]
        have h1 : cs.getD i 0 ∈ cs := by
          rw [List.getD_eq_getElem cs 0 hi]
          exact List.getElem_mem hi
        have := (h0 _ h1).1
        linarith
      · rcases AnoGAN.mem_take_getD cs i _ h with ⟨j, hj, _, hget⟩
        rw [← hget]
        exact hall j hj
  · intro i h1i hil
    have hinv := AnoGAN.selection_saved_inv d g t (cs.take i)
      { best_auc := -1, saved := none }
      (fun c hc => (h0 c (List.mem_of_mem_take hc)).1)
      (Or.inl ⟨rfl, rfl⟩)
    have hne : cs.take i ≠ [] := by
      apply List.ne_nil_of_length_pos
      rw [List.length_take]
      exact lt_min (by omega) (by omega)
    rcases hinv with ⟨_, hb⟩ | hs
    · exfalso
      rcases List.exists_mem_of_ne_nil _ hne with ⟨c, hc⟩
      have hcle := AnoGAN.foldl_max_is_ub (cs.take i) (-1) c hc
      have hc0 := (h0 c (List.mem_of_mem_take hc)).1
      have : (AnoGAN.run_selection d g t (cs.take i)).best_auc =
          (cs.take i).foldl max (-1) := hbest _
      unfold AnoGAN.run_selection at this
      rw [hb] at this
      linarith
    · refine ⟨AnoGAN._select_and_save d g t
        ((cs.take i).foldl (AnoGAN.selection_step d g t)
          { best_auc := -1, saved := none }).best_auc, hs, rfl, ?_, ?_⟩
      · have hb := hbest (cs.take i)
        unfold AnoGAN.run_selection at hb
        show ((cs.take i).foldl (AnoGAN.selection_step d g t)
          { best_auc := -1, saved := none }).best_auc ∈ cs.take i
        rw [hb]
        rcases AnoGAN.foldl_max_mem (cs.take i) (-1) with h | h
        · exfalso
          rcases List.exists_mem_of_ne_nil _ hne with ⟨c, hc⟩
          have hcle := AnoGAN.foldl_max_is_ub (cs.take i) (-1) c hc
          have hc0 := (h0 c (List.mem_of_mem_take hc)).1
          rw [h] at hcle
          linarith
        · exact h
      · intro c hc
        have hb := hbest (cs.take i)
        unfold AnoGAN.run_selection at hb
        show c ≤ ((cs.take i).foldl (AnoGAN.selection_step d g t)
          { best_auc := -1, saved := none }).best_auc
        rw [hb]
        exact AnoGAN.foldl_max_is_ub (cs.take i) (-1) c hc

/-- Witness for C2 at the concrete candidate AUC sequence
`[1/2, 3/10, 7/10]` and concrete model parameters. -/
theorem c2_witness :
    (∀ c ∈ [mkRat 1 2, mkRat 3 10, mkRat 7 10], 0 ≤ c ∧ c ≤ 1) ∧
    ((∀ i, i < [mkRat 1 2, mkRat 3 10, mkRat 7 10].length →
      ((AnoGAN.run_selection [1] [2] [0, 1]
          ([mkRat 1 2, mkRat 3 10, mkRat 7 10].take i)).best_auc <
            [mkRat 1 2, mkRat 3 10, mkRat 7 10].getD i 0 ↔
        ∀ j, j < i →
          [mkRat 1 2, mkRat 3 10, mkRat 7 10].getD j 0 <
            [mkRat 1 2, mkRat 3 10, mkRat 7 10].getD i 0)) ∧
    (∀ i, 1 ≤ i → i ≤ [mkRat 1 2, mkRat 3 10, mkRat 7 10].length →
      ∃ ck : AnoGAN.Checkpoint,
        (AnoGAN.run_selection [1] [2] [0, 1]
          ([mkRat 1 2, mkRat 3 10, mkRat 7 10].take i)).saved = some ck ∧
        ck = AnoGAN._select_and_save [1] [2] [0, 1] ck.value ∧
        ck.value ∈ [mkRat 1 2, mkRat 3 10, mkRat 7 10].take i ∧
        ∀ c ∈ [mkRat 1 2, mkRat 3 10, mkRat 7 10].take i, c ≤ ck.value)) :=
  ⟨by decide,
   c2_checkpoint_written_iff_new_best [1] [2] [0, 1]
     [mkRat 1 2, mkRat 3 10, mkRat 7 10] (by decide)⟩
